import Mathlib

/-!
Verification of the tinyclaw orchestrator core against its specification.

The definitions below are shallow embeddings of the TypeScript source:

* queue dispatcher and crash recovery    (src/queue-processor.ts)
* team-chain aggregation and the easter-egg branch (src/queue-processor.ts)
* send-file marker scanning/stripping    (src/queue-processor.ts, lines 331-352)
* swarm final-response handling          (swarm processor, sendFinalResponse)
* shuffle sub-splitting and partition reduce (src/swarm/shuffle.ts)
* memory composer reflections section    (src/lib/invoke.ts, loadMemoryContext)
* Codex (OpenAI provider) output parsing (src/lib/invoke.ts, invokeAgent)

File-system reads and writes are modelled by explicit state records; the
external agent subprocess is modelled by an oracle function passed as a
parameter.  JavaScript strings are modelled by Lean strings (sequences of
characters), JSON parsing of a line is modelled by the parse result
(an Option of the record type the code reads out of the JSON value).
-/

namespace TinyClaw

/-- Message record read from the incoming queue (src/lib/types, MessageData). -/
structure MessageData where
  channel : String
  sender : String
  message : String
  timestamp : Nat
  messageId : String
  agent : Option String := none
  senderId : Option String := none
  files : Option (List String) := none
deriving Repr, DecidableEq

/-- Response record deposited in the outgoing queue (src/lib/types, ResponseData).
The optional fields are absent unless the writing code supplies them. -/
structure ResponseRecord where
  channel : String
  sender : String
  message : String
  originalMessage : String
  timestamp : Nat
  messageId : String
  agent : Option String := none
  files : Option (List String) := none
deriving Repr, DecidableEq

/-- One step of a team chain (src/lib/types, ChainStep). -/
structure ChainStep where
  agentId : String
  response : String
deriving Repr, DecidableEq

/-- State of the file queue: filenames in the incoming and processing
directories, the outgoing directory as filename/record pairs, and the
in-memory tracking set of queued filenames (the queuedFiles Set). -/
structure QueueState where
  incoming : List String
  processing : List String
  outgoing : List (String × ResponseRecord)
  queued : List String
deriving Repr, DecidableEq

/-- Crash recovery (queue-processor.ts, recoverOrphanedFiles, lines 36-45):
every file in the processing directory whose name ends in ".json" is
renamed into the incoming directory; other files are untouched.  The
startup sequence (lines 500-508) runs this before the polling interval is
installed, so it acts on the startup state before any tick. -/
def recoverOrphanedFiles (st : QueueState) : QueueState :=
  { st with
    processing := st.processing.filter (fun f => !(f.endsWith ".json"))
    incoming := st.incoming ++ st.processing.filter (fun f => f.endsWith ".json") }

/-- Outcome of the fallible body of processMessage (everything between the
rename into processing and the final response write): either a response
file (name and record) or a thrown error message. -/
abbrev ProcessOutcome := Except String (String × ResponseRecord)

/-- Core of processMessage (queue-processor.ts, lines 48-391): the file is
renamed from incoming into processing; if the body succeeds its response
is written to outgoing and the processing file is deleted; on any uncaught
error the catch block renames the processing file back to its incoming
path and writes nothing. -/
def processMessageModel (body : ProcessOutcome) (fname : String) (st : QueueState) :
    QueueState :=
  let st1 : QueueState :=
    { st with incoming := st.incoming.erase fname, processing := st.processing ++ [fname] }
  match body with
  | Except.ok out =>
      { st1 with
        outgoing := st1.outgoing ++ [out]
        processing := st1.processing.erase fname }
  | Except.error _ =>
      { st1 with
        processing := st1.processing.erase fname
        incoming := st1.incoming ++ [fname] }

/-- Settling of the per-agent chain task (queue-processor.ts, lines 449-456):
whether the task succeeded or failed, the finally handler removes the
filename from the queuedFiles tracking set. -/
def settleTask (fname : String) (st : QueueState) : QueueState :=
  { st with queued := st.queued.filter (fun x => x ≠ fname) }

/-- One enqueued task as chained by processQueue: run processMessage, then
settle (the catch handler only logs, the finally handler releases the
tracking entry). -/
def runQueuedTask (body : ProcessOutcome) (fname : String) (st : QueueState) : QueueState :=
  settleTask fname (processMessageModel body fname st)

/-- Aggregation of the recorded chain steps into the final response
(queue-processor.ts, lines 283-290). -/
def aggregateChainSteps : List ChainStep → String
  | [s] => s.response
  | steps => String.intercalate "\n\n---\n\n" (steps.map (fun s => "@" ++ s.agentId ++ ": " ++ s.response))

/-- Response-length limiting applied after marker stripping
(queue-processor.ts, lines 349-352). -/
def truncateResponse (s : String) : String :=
  if s.length > 4000 then s.take 3900 ++ "\n\n[Response truncated...]" else s

/-- Result of the swarm final-response writer: the message written to the
outgoing queue, its files attachment field, and the full report content
persisted to the files directory, when one is persisted. -/
structure SwarmFinalOut where
  message : String
  files : Option (List String)
  savedContent : Option String
deriving Repr, DecidableEq

/-- Swarm final-response handling (swarm processor, sendFinalResponse,
lines 1038-1066): a response over 4000 characters is saved in full to a
file in the files directory, attached via the files field, and the inline
message is the first 4000 characters plus a notice. -/
def sendFinalResponse (filePath : String) (response : String) : SwarmFinalOut :=
  if response.length > 4000 then
    { message := response.take 4000 ++ "\n\n_(Full swarm report attached as file)_"
      files := some [filePath]
      savedContent := some response }
  else
    { message := response, files := none, savedContent := none }

/-- Response filename for the normal (non-easter-egg, non-heartbeat) path
(queue-processor.ts, lines 367-369). -/
def normalResponseFilename (channel messageId : String) (now : Nat) : String :=
  channel ++ "_" ++ messageId ++ "_" ++ toString now ++ ".json"

/-- Observable outcome of one processMessage dispatch branch: the outgoing
filename, the response record written there, how many agent subprocess
invocations the branch performed, and whether the processing file was
deleted. -/
structure BranchOutcome where
  responseFile : String
  response : ResponseRecord
  agentInvocations : Nat
  processingDeleted : Bool
deriving Repr, DecidableEq

/-- Easter-egg response record (queue-processor.ts, lines 93-100): the
routing's message (easter-egg text) becomes the response message, the
original message and messageId are preserved, and neither agent nor files
is set. -/
def easterEggResponse (md : MessageData) (easterMsg : String) (now : Nat) : ResponseRecord :=
  { channel := md.channel
    sender := md.sender
    message := easterMsg
    originalMessage := md.message
    timestamp := now
    messageId := md.messageId }

/-- Dispatch on the resolved routing (queue-processor.ts, lines 87-106):
when routing resolved to the sentinel id "error", the easter-egg response
is written directly under the processing file's own basename, the
processing file is deleted, and no agent is invoked; otherwise the rest of
processMessage runs (here abstracted as the opaque continuation held in
the normal argument, which performs at least the agent invocation). -/
def dispatchRouted (normal : Unit → BranchOutcome) (routing : String × String)
    (md : MessageData) (now : Nat) (procBasename : String) : BranchOutcome :=
  if routing.1 = "error" then
    { responseFile := procBasename
      response := easterEggResponse md routing.2 now
      agentInvocations := 0
      processingDeleted := true }
  else
    normal ()

/-- JavaScript String.prototype.trim modelled on the character list:
leading and trailing whitespace characters are removed. -/
def jsTrim (s : String) : String :=
  String.mk (((s.data.dropWhile Char.isWhitespace).reverse.dropWhile Char.isWhitespace).reverse)

/-- Literal character sequence that opens a send-file marker. -/
def sendFileMarkerOpen : List Char := ("[send_file:").data

/-- Split a character list at its first closing square bracket: returns the
characters before it and the characters after it, or none when the list
has no closing bracket. -/
def splitAtRBracket : List Char → Option (List Char × List Char)
  | [] => none
  | c :: cs =>
    if c = ']' then some ([], cs)
    else
      match splitAtRBracket cs with
      | some (a, b) => some (c :: a, b)
      | none => none

/-- Fuelled scan for the regex used at queue-processor.ts lines 334-346:
each match is the literal opening, at least one non-bracket character, and
a closing bracket; the scan returns the captured contents of all matches,
in order, together with the text with each matched span removed (the
behaviour of the global exec loop and of replace with the same regex).
The fuel only needs to be at least the input length. -/
def scanSendFileAux : Nat → List Char → List (List Char) × List Char
  | 0, l => ([], l)
  | _ + 1, [] => ([], [])
  | fuel + 1, c :: rest =>
    if sendFileMarkerOpen.isPrefixOf (c :: rest) then
      match splitAtRBracket ((c :: rest).drop 11) with
      | some (content, after) =>
        if content.isEmpty then
          let (ps, txt) := scanSendFileAux fuel rest
          (ps, c :: txt)
        else
          let (ps, txt) := scanSendFileAux fuel after
          (content :: ps, txt)
      | none =>
        let (ps, txt) := scanSendFileAux fuel rest
        (ps, c :: txt)
    else
      let (ps, txt) := scanSendFileAux fuel rest
      (ps, c :: txt)

/-- Scan a string for send-file markers: captured marker contents plus the
text with the matched marker spans removed. -/
def scanSendFile (s : String) : List (List Char) × List Char :=
  scanSendFileAux s.data.length s.data

/-- Trimmed paths named by the send-file markers of a text (the regex
captures, each trimmed as at queue-processor.ts line 337). -/
def sendFilePaths (s : String) : List String :=
  (scanSendFile s).1.map (fun cs => jsTrim (String.mk cs))

/-- Whether the send-file regex still matches somewhere in a text. -/
def containsSendFileMarker (s : String) : Bool :=
  !(scanSendFile s).1.isEmpty

/-- Send-file stage of processMessage (queue-processor.ts, lines 331-347):
the final response is trimmed; marker paths naming existing files are
added to the outbound set seeded with the files collected from team chain
steps; only when the resulting set is non-empty are the marker spans
removed (and the result trimmed again).  This definition is the outbound
set (the Set seeded with allFiles, extended with the existing marker
paths, read off in insertion order). -/
def outboundFilesOf (fileExists : String → Bool) (allFiles : List String)
    (t : String) : List String :=
  (allFiles ++ (sendFilePaths t).filter fileExists).dedup

/-- Send-file stage of processMessage (queue-processor.ts, lines 331-347),
continued: returns the outgoing message text and the outbound files list. -/
def processSendFileStage (fileExists : String → Bool) (allFiles : List String)
    (response : String) : String × List String :=
  let t := jsTrim response
  let outbound := outboundFilesOf fileExists allFiles t
  if outbound.isEmpty then (t, outbound)
  else (jsTrim (String.mk (scanSendFile t).2), outbound)

/-- Placeholder recorded for a keyed partition whose reduction failed
(shuffle.ts, line 270). -/
def partitionPlaceholder (key msg : String) : String :=
  "[Partition \"" ++ key ++ "\" failed: " ++ msg ++ "]"

/-- Partition-reduce prompt builder (shuffle.ts, buildPartitionReducePrompt,
lines 359-377). -/
def buildPartitionReducePrompt (customPrompt partitionKey itemsText : String)
    (itemCount : Nat) (userMessage : String) : String :=
  let defaultPrompt :=
    "Analyze the following " ++ toString itemCount ++ " items that share the key \"" ++
      partitionKey ++ "\". Identify any duplicates, near-duplicates, or closely related items."
  let prompt :=
    if customPrompt ≠ "" then
      ((((customPrompt.replace "\x7b\x7bpartition_key\x7d\x7d" partitionKey).replace
          "\x7b\x7bitems\x7d\x7d" itemsText).replace
          "\x7b\x7bitem_count\x7d\x7d" (toString itemCount)).replace
          "\x7b\x7buser_message\x7d\x7d" userMessage)
    else defaultPrompt
  prompt ++ "\n\nOriginal task: " ++ userMessage ++ "\n\nPartition \"" ++ partitionKey ++
    "\" (" ++ toString itemCount ++ " items):\n" ++ itemsText

/-- Entry contributed by one keyed partition (shuffle.ts, lines 241-274):
the reducer agent is invoked (modelled by the invoke oracle from prompt to
result or thrown error); on success the key/result pair is pushed, on
failure the key/placeholder pair is pushed by the catch block. -/
def reduceOnePartition (invoke : String → Except String String)
    (reducePrompt userMessage : String) (p : String × List String) : String × String :=
  match invoke (buildPartitionReducePrompt reducePrompt p.1
      (String.intercalate "\n" p.2) p.2.length userMessage) with
  | Except.ok r => (p.1, r)
  | Except.error m => (p.1, partitionPlaceholder p.1 m)

/-- Entries contributed by the unkeyed items (shuffle.ts, lines 276-306):
when unkeyed items exist they are reduced under the key "_unkeyed"; on
success the pair is pushed, on failure the catch block only logs and
pushes nothing. -/
def reduceUnkeyed (invoke : String → Except String String)
    (reducePrompt userMessage : String) (unkeyed : List String) :
    List (String × String) :=
  if unkeyed.isEmpty then []
  else
    match invoke (buildPartitionReducePrompt reducePrompt "_unkeyed"
        (String.intercalate "\n" unkeyed) unkeyed.length userMessage) with
    | Except.ok r => [("_unkeyed", r)]
    | Except.error _ => []

/-- Collected partition-reduce results (shuffle.ts, shuffleReducePartitions,
lines 237-308): the entries pushed for the keyed partitions and for the
unkeyed items.  Completion order of the concurrent tasks varies; this
model lists keyed entries in partition order, which determines the same
multiset of entries, and the final merge sorts the collected list by key
before concatenation. -/
def collectPartitionResults (invoke : String → Except String String)
    (reducePrompt userMessage : String)
    (parts : List (String × List String)) (unkeyed : List String) :
    List (String × String) :=
  parts.map (reduceOnePartition invoke reducePrompt userMessage) ++
    reduceUnkeyed invoke reducePrompt userMessage unkeyed

/-- Sub-splitting of one grouped partition (shuffle.ts, lines 183-196): a
partition at or under the size limit is kept unchanged under its key; an
oversized partition is cut into ceil(length / maxSize) contiguous slices
named key_part1, key_part2, and so on. -/
def subSplit (maxSize : Nat) (key : String) (items : List String) :
    List (String × List String) :=
  if items.length ≤ maxSize then [(key, items)]
  else
    (List.range ((items.length + maxSize - 1) / maxSize)).map
      (fun i => (key ++ "_part" ++ toString (i + 1), (items.drop (i * maxSize)).take maxSize))

/-- Sub-splitting applied to every grouped partition to produce the final
partition table (shuffle.ts, lines 182-196). -/
def subSplitPartitions (maxSize : Nat) (parts : List (String × List String)) :
    List (String × List String) :=
  parts.flatMap (fun p => subSplit maxSize p.1 p.2)

/-- Reflection record as read from one line of reflections.jsonl
(invoke.ts, loadMemoryContext).  The action field of the JSON value may be
absent or null (none) or a string. -/
structure ReflectionRecord where
  type : String
  context : String
  lesson : String
  action : Option String
deriving Repr, DecidableEq

/-- Rendering of one reflection (invoke.ts, line 473): the action suffix is
appended when the action value is truthy, that is present and non-empty. -/
def renderReflection (r : ReflectionRecord) : String :=
  "- [" ++ r.type ++ "] " ++ r.context ++ ": " ++ r.lesson ++
    (match r.action with
     | some a => if a = "" then "" else " → " ++ a
     | none => "")

/-- Recent Reflections entries produced by loadMemoryContext (invoke.ts,
lines 462-483).  A line of the file is modelled by its JSON parse result:
some record when the line parses, none when it is malformed.  The code
takes the last 10 lines of the file and keeps the renderings of those that
parse. -/
def recentReflections (lines : List (Option ReflectionRecord)) : List String :=
  (lines.drop (lines.length - 10)).filterMap (fun o => o.map renderReflection)

/-- Rendering prescribed by the claim: the last 10 parseable lines of the
file, each rendered. Modelled from the spec for comparison with
recentReflections. -/
def lastTenParseableReflections (lines : List (Option ReflectionRecord)) : List String :=
  (((lines.filterMap id).drop ((lines.filterMap id).length - 10)).map renderReflection)

/-- Item object of a Codex JSONL event (invoke.ts, lines 662-664): its type
tag and its text, which may be absent. -/
structure CodexItem where
  type : String
  text : Option String
deriving Repr, DecidableEq

/-- Codex JSONL event (invoke.ts, lines 662-664): the type tag and the item
object, which may be absent. -/
structure CodexEvent where
  type : String
  item : Option CodexItem
deriving Repr, DecidableEq

/-- Fallback string returned when no response was extracted (invoke.ts,
line 671). -/
def codexFallback : String := "Sorry, I could not generate a response from Codex."

/-- Texts assigned by the Codex output loop, in order: for each parseable
line whose event has type item.completed and whose item has type
agent_message, the item's text (which may be absent). -/
def agentMessageTexts (lines : List (Option CodexEvent)) : List (Option String) :=
  lines.filterMap (fun o =>
    match o with
    | none => none
    | some e =>
      match e.item with
      | none => none
      | some it =>
        if e.type = "item.completed" ∧ it.type = "agent_message" then some it.text
        else none)

/-- Codex stdout parsing (invoke.ts, lines 657-671): response starts as the
empty string; each parseable line whose event matches overwrites it with
the item's text (undefined when the text is absent); finally the response
is returned unless it is falsy (empty or undefined), in which case the
fallback string is returned.  The JavaScript value of response is modelled
as Option String with none for undefined. -/
def extractCodexResponse (lines : List (Option CodexEvent)) : String :=
  let r : Option String := lines.foldl
    (fun acc o =>
      match o with
      | none => acc
      | some e =>
        match e.item with
        | none => acc
        | some it =>
          if e.type = "item.completed" ∧ it.type = "agent_message" then it.text
          else acc)
    (some "")
  match r with
  | some s => if s = "" then codexFallback else s
  | none => codexFallback

/-- C2: at startup, before the first polling tick runs, every json file in
the processing directory is moved back to the incoming directory: after
recovery (which the startup sequence runs before installing the polling
interval) the processing directory holds no json file, the incoming
directory has gained exactly the stranded json files, and non-json files
are the only ones left in processing. -/
theorem recoverOrphanedFiles_spec (st : QueueState) :
    (recoverOrphanedFiles st).incoming =
      st.incoming ++ st.processing.filter (fun f => f.endsWith ".json")
    ∧ (recoverOrphanedFiles st).processing.filter (fun f => f.endsWith ".json") = []
    ∧ (recoverOrphanedFiles st).processing =
        st.processing.filter (fun f => !(f.endsWith ".json")) := by
  refine ⟨rfl, ?_, rfl⟩
  simp [recoverOrphanedFiles, List.filter_filter]

/-- C3: when the fallible body of processMessage throws, the catch block
moves the file from processing back to incoming and no outgoing response
is written for the attempt; and whether the task succeeds or fails, the
finally handler removes the filename from the tracking set when the task
settles. -/
theorem processMessage_error_rollback (e : String) (out : String × ResponseRecord)
    (fname : String) (st : QueueState) (hp : fname ∉ st.processing) :
    (runQueuedTask (Except.error e) fname st).outgoing = st.outgoing
    ∧ fname ∈ (runQueuedTask (Except.error e) fname st).incoming
    ∧ fname ∉ (runQueuedTask (Except.error e) fname st).processing
    ∧ fname ∉ (runQueuedTask (Except.error e) fname st).queued
    ∧ fname ∉ (runQueuedTask (Except.ok out) fname st).queued := by
  refine ⟨rfl, ?_, ?_, ?_, ?_⟩
  · simp [runQueuedTask, settleTask, processMessageModel]
  · simp only [runQueuedTask, settleTask, processMessageModel]
    rw [List.erase_append_right _ hp]
    simp [hp]
  · simp [runQueuedTask, settleTask, processMessageModel]
  · simp [runQueuedTask, settleTask, processMessageModel]

/-- Closed witness for processMessage_error_rollback at a concrete state. -/
theorem processMessage_error_rollback_witness :
    "a.json" ∉ (runQueuedTask (Except.error "boom") "a.json"
      { incoming := ["a.json"], processing := [], outgoing := [], queued := ["a.json"] }).queued := by
  exact (processMessage_error_rollback "boom" ("r", easterEggResponse
    { channel := "t", sender := "u", message := "m", timestamp := 0, messageId := "m1" } "x" 0)
    "a.json" { incoming := ["a.json"], processing := [], outgoing := [], queued := ["a.json"] }
    (by simp)).2.2.2.1

/-- C4: a dispatcher final text longer than 4000 characters is written as
its first 3900 characters followed by the truncation notice, and text of
length at most 4000 is written unchanged; a swarm final response longer
than 4000 characters is persisted in full to the files directory, attached
via files, and its inline message carries the notice, while one of length
at most 4000 is sent unchanged with no attachment. -/
theorem responseTruncation_spec (s t path : String)
    (hs : 4000 < s.length) (ht : t.length ≤ 4000) :
    truncateResponse s = s.take 3900 ++ "\n\n[Response truncated...]"
    ∧ truncateResponse t = t
    ∧ sendFinalResponse path s =
        { message := s.take 4000 ++ "\n\n_(Full swarm report attached as file)_"
          files := some [path]
          savedContent := some s }
    ∧ sendFinalResponse path t = { message := t, files := none, savedContent := none } := by
  refine ⟨?_, ?_, ?_, ?_⟩
  · simp [truncateResponse, hs]
  · simp [truncateResponse, Nat.not_lt.2 ht]
  · simp [sendFinalResponse, hs]
  · simp [sendFinalResponse, Nat.not_lt.2 ht]

/-- Closed witness for responseTruncation_spec at a 4001-character string
and a short string. -/
theorem responseTruncation_spec_witness :
    4000 < (String.mk (List.replicate 4001 'a')).length
    ∧ truncateResponse "ok" = "ok"
    ∧ truncateResponse (String.mk (List.replicate 4001 'a')) =
        (String.mk (List.replicate 4001 'a')).take 3900 ++ "\n\n[Response truncated...]" := by
  have h1 : 4000 < (String.mk (List.replicate 4001 'a')).length := by
    have h2 : (String.mk (List.replicate 4001 'a')).length = 4001 := by
      show (List.replicate 4001 'a').length = 4001
      rw [List.length_replicate]
    omega
  have h := responseTruncation_spec (String.mk (List.replicate 4001 'a')) "ok" "p" h1 (by decide)
  exact ⟨h1, h.2.1, h.1⟩

/-- C8: a team chain that terminated with exactly one recorded step yields
that step's response verbatim; with two or more steps, the final response
is the steps' responses in recorded order, each prefixed by its agent id,
joined by the separator. -/
theorem aggregateChainSteps_spec (s : ChainStep) (steps : List ChainStep)
    (h : 2 ≤ steps.length) :
    aggregateChainSteps [s] = s.response
    ∧ aggregateChainSteps steps =
        String.intercalate "\n\n---\n\n"
          (steps.map (fun st => "@" ++ st.agentId ++ ": " ++ st.response)) := by
  constructor
  · rfl
  · match steps, h with
    | a :: b :: rest, _ => rfl

/-- Closed witness for aggregateChainSteps_spec at a two-step chain. -/
theorem aggregateChainSteps_spec_witness :
    aggregateChainSteps [ChainStep.mk "alice" "ra"] = "ra"
    ∧ aggregateChainSteps [ChainStep.mk "alice" "ra", ChainStep.mk "bob" "rb"] =
        String.intercalate "\n\n---\n\n"
          ([ChainStep.mk "alice" "ra", ChainStep.mk "bob" "rb"].map
            (fun st => "@" ++ st.agentId ++ ": " ++ st.response)) := by
  have h := aggregateChainSteps_spec (ChainStep.mk "alice" "ra")
    [ChainStep.mk "alice" "ra", ChainStep.mk "bob" "rb"] (by decide)
  exact ⟨h.1, h.2⟩

/-- C10: when routing resolves to the sentinel agent id "error", the
dispatcher invokes no agent (the outcome does not depend on the normal
continuation and records zero invocations), writes the easter-egg response
under the processing file's own basename with the original messageId and
no agent and no files fields, and deletes the processing file. -/
theorem easterEgg_branch_spec (normal : Unit → BranchOutcome) (routing : String × String)
    (md : MessageData) (now : Nat) (procBasename : String) (h : routing.1 = "error") :
    dispatchRouted normal routing md now procBasename =
      { responseFile := procBasename
        response :=
          { channel := md.channel
            sender := md.sender
            message := routing.2
            originalMessage := md.message
            timestamp := now
            messageId := md.messageId
            agent := none
            files := none }
        agentInvocations := 0
        processingDeleted := true } := by
  simp [dispatchRouted, h, easterEggResponse]

/-- Closed witness for easterEgg_branch_spec at a concrete message and a
concrete (never consulted) normal continuation. -/
theorem easterEgg_branch_spec_witness :
    dispatchRouted
      (fun _ =>
        { responseFile := "other"
          response := easterEggResponse
            { channel := "t", sender := "u", message := "@a @b hi", timestamp := 5, messageId := "m1" } "x" 9
          agentInvocations := 1
          processingDeleted := true })
      ("error", "egg")
      { channel := "t", sender := "u", message := "@a @b hi", timestamp := 5, messageId := "m1" }
      9 "t_m1_5.json" =
      { responseFile := "t_m1_5.json"
        response :=
          { channel := "t"
            sender := "u"
            message := "egg"
            originalMessage := "@a @b hi"
            timestamp := 9
            messageId := "m1"
            agent := none
            files := none }
        agentInvocations := 0
        processingDeleted := true } := by
  exact easterEgg_branch_spec _ ("error", "egg")
    { channel := "t", sender := "u", message := "@a @b hi", timestamp := 5, messageId := "m1" }
    9 "t_m1_5.json" rfl

/-- Helper: the second component of the send-file stage is the outbound
set in both branches. -/
theorem processSendFileStage_snd (fileExists : String → Bool) (allFiles : List String)
    (response : String) :
    (processSendFileStage fileExists allFiles response).2 =
      outboundFilesOf fileExists allFiles (jsTrim response) := by
  simp only [processSendFileStage]
  split <;> rfl

/-- Helper: membership in the outbound files set. -/
theorem mem_outboundFilesOf (fileExists : String → Bool) (allFiles : List String)
    (t : String) (p : String) :
    p ∈ outboundFilesOf fileExists allFiles t ↔
      p ∈ allFiles ∨ (p ∈ sendFilePaths t ∧ fileExists p = true) := by
  simp [outboundFilesOf, List.mem_dedup, List.mem_append, List.mem_filter]

/-- C1 (amended): every send-file marker path (trimmed) that names an
existing file, and every file collected from team chain steps, is included
in the response's files; the marker spans are removed from the final text
only when the collected set is non-empty — when it is empty the trimmed
text is written unchanged, markers included. -/
theorem sendFile_stage_spec (fileExists : String → Bool) (allFiles : List String)
    (response : String) :
    (∀ p, p ∈ sendFilePaths (jsTrim response) → fileExists p = true →
        p ∈ (processSendFileStage fileExists allFiles response).2)
    ∧ (∀ p, p ∈ allFiles → p ∈ (processSendFileStage fileExists allFiles response).2)
    ∧ ((processSendFileStage fileExists allFiles response).2 = [] →
        (processSendFileStage fileExists allFiles response).1 = jsTrim response)
    ∧ ((processSendFileStage fileExists allFiles response).2 ≠ [] →
        (processSendFileStage fileExists allFiles response).1 =
          jsTrim (String.mk (scanSendFile (jsTrim response)).2)) := by
  refine ⟨?_, ?_, ?_, ?_⟩
  · intro p hmem hex
    rw [processSendFileStage_snd, mem_outboundFilesOf]
    exact Or.inr ⟨hmem, hex⟩
  · intro p hmem
    rw [processSendFileStage_snd, mem_outboundFilesOf]
    exact Or.inl hmem
  · intro hnil
    rw [processSendFileStage_snd] at hnil
    simp only [processSendFileStage]
    rw [if_pos (by simp [hnil])]
  · intro hne
    rw [processSendFileStage_snd] at hne
    simp only [processSendFileStage]
    rw [if_neg (by simp [hne])]

/-- Closed witness for sendFile_stage_spec: a marker whose path exists is
collected into files. -/
theorem sendFile_stage_spec_witness :
    "/a" ∈ (processSendFileStage (fun _ => true) [] "[send_file: /a]").2 := by
  exact (sendFile_stage_spec (fun _ => true) [] "[send_file: /a]").1 "/a" (by decide) rfl

/-- C1 counterexample: a response whose only marker names a non-existent
file is written with the marker intact — the outgoing message still
contains a send-file marker, contradicting the claim that every outgoing
message is free of them. -/
theorem sendFile_marker_retained :
    (processSendFileStage (fun _ => false) [] "[send_file: /tmp/missing]").1 =
      "[send_file: /tmp/missing]"
    ∧ containsSendFileMarker
        (processSendFileStage (fun _ => false) [] "[send_file: /tmp/missing]").1 = true := by
  exact ⟨by decide, by decide⟩

/-- Helper: length bound for the ceiling division used by sub-splitting. -/
theorem len_le_ceil_mul (len n : Nat) (hn : 0 < n) : len ≤ ((len + n - 1) / n) * n := by
  have h1 := Nat.div_add_mod (len + n - 1) n
  have h2 : (len + n - 1) % n < n := Nat.mod_lt _ hn
  rw [Nat.mul_comm] at h1
  generalize hm : ((len + n - 1) / n) * n = m at h1 ⊢
  omega

/-- Helper: joining the first k contiguous n-sized slices of a list yields
its first k*n elements. -/
theorem flatten_range_chunks {α : Type} (n : Nat) (l : List α) (k : Nat) :
    ((List.range k).map (fun i => (l.drop (i * n)).take n)).flatten = l.take (k * n) := by
  induction k with
  | zero => simp
  | succ k ih =>
    rw [List.range_succ, List.map_append, List.flatten_append, ih]
    simp only [List.map_cons, List.map_nil, List.flatten_cons, List.flatten_nil, List.append_nil]
    rw [← List.take_add, Nat.succ_mul]

/-- C6: an oversized grouped partition is sub-split into contiguous slices
whose concatenation in part order is the pre-split partition, none longer
than max_partition_size, with names key_part1, key_part2, ...; a partition
at or under the limit is kept unchanged under its key. -/
theorem subSplit_spec (maxSize : Nat) (key : String) (items : List String)
    (h : 0 < maxSize) :
    ((subSplit maxSize key items).map Prod.snd).flatten = items
    ∧ (∀ e ∈ subSplit maxSize key items, e.2.length ≤ maxSize)
    ∧ (items.length ≤ maxSize → subSplit maxSize key items = [(key, items)])
    ∧ (maxSize < items.length →
        (subSplit maxSize key items).map Prod.fst =
          (List.range ((items.length + maxSize - 1) / maxSize)).map
            (fun i => key ++ "_part" ++ toString (i + 1))) := by
  refine ⟨?_, ?_, ?_, ?_⟩
  · by_cases hle : items.length ≤ maxSize
    · simp [subSplit, hle]
    · simp only [subSplit, if_neg hle]
      rw [List.map_map]
      have : (Prod.snd ∘ fun i =>
          (key ++ "_part" ++ toString (i + 1), (items.drop (i * maxSize)).take maxSize)) =
          (fun i => (items.drop (i * maxSize)).take maxSize) := rfl
      rw [this, flatten_range_chunks]
      exact List.take_of_length_le (len_le_ceil_mul items.length maxSize h)
  · intro e he
    by_cases hle : items.length ≤ maxSize
    · simp only [subSplit, if_pos hle, List.mem_singleton] at he
      rw [he]
      exact hle
    · simp only [subSplit, if_neg hle, List.mem_map] at he
      obtain ⟨i, _, hei⟩ := he
      rw [← hei]
      simp only [List.length_take]
      exact Nat.min_le_left _ _
  · intro hle
    simp [subSplit, hle]
  · intro hlt
    simp only [subSplit, if_neg (Nat.not_le.2 hlt)]
    rw [List.map_map]
    rfl

/-- Closed witness for subSplit_spec at max size 1 and a two-item
partition: two sub-partitions named k_part1 and k_part2 whose
concatenation is the original. -/
theorem subSplit_spec_witness :
    ((subSplit 1 "k" ["a", "b"]).map Prod.snd).flatten = ["a", "b"]
    ∧ (subSplit 1 "k" ["a", "b"]).map Prod.fst = ["k_part1", "k_part2"] := by
  have h := subSplit_spec 1 "k" ["a", "b"] (by decide)
  refine ⟨h.1, ?_⟩
  rw [h.2.2.2 (by decide)]
  decide

/-- Helper: mapping inside the option before filterMap is the same as
filtering first and mapping after. -/
theorem filterMap_option_map {α β : Type} (f : α → β) (l : List (Option α)) :
    l.filterMap (fun o => o.map f) = (l.filterMap id).map f := by
  induction l with
  | nil => rfl
  | cons o rest ih =>
    cases o with
    | none => simpa using ih
    | some a => simpa using ih

/-- C7 (amended): the Recent Reflections entries are the parseable lines
among the last 10 lines of reflections.jsonl, in file order, each rendered
with the action suffix exactly when the record's action is present and
non-empty; malformed lines among the last 10 are skipped silently, and at
most 10 entries are produced. -/
theorem recentReflections_spec (lines : List (Option ReflectionRecord)) :
    recentReflections lines =
      ((lines.drop (lines.length - 10)).filterMap id).map renderReflection
    ∧ (recentReflections lines).length ≤ 10 := by
  constructor
  · exact filterMap_option_map renderReflection _
  · have h1 : (recentReflections lines).length ≤ (lines.drop (lines.length - 10)).length :=
      List.length_filterMap_le _ _
    have h2 : (lines.drop (lines.length - 10)).length = lines.length - (lines.length - 10) :=
      List.length_drop _ _
    omega

/-- C7 counterexample: with 11 lines of which the first 10 parse and the
last is malformed, the section holds only 9 entries — the renderings of
lines 2 through 10 — while the last 10 parseable lines of the file are
lines 1 through 10; the composer reaches back over malformed lines no
further than the last 10 raw lines. -/
theorem recentReflections_lastTen_mismatch :
    recentReflections
        (((List.range 10).map (fun i => some ⟨toString i, "c", "l", none⟩)) ++ [none]) ≠
      lastTenParseableReflections
        (((List.range 10).map (fun i => some ⟨toString i, "c", "l", none⟩)) ++ [none]) := by
  decide

/-- Helper: the last element of a cons, with default, equals the last of
the tail with the head as default. -/
theorem getLast?_cons_getD {α : Type} (x : α) (xs : List α) (init : α) :
    ((x :: xs).getLast?).getD init = (xs.getLast?).getD x := by
  cases xs with
  | nil => rfl
  | cons y ys => rw [List.getLast?_cons_cons]; rfl

/-- Helper: the fold in the Codex output loop computes the last assigned
text, or the initial value when no line assigns. -/
theorem codexFold_eq_getLast (lines : List (Option CodexEvent)) :
    ∀ init : Option String,
      lines.foldl
        (fun acc o =>
          match o with
          | none => acc
          | some e =>
            match e.item with
            | none => acc
            | some it =>
              if e.type = "item.completed" ∧ it.type = "agent_message" then it.text
              else acc)
        init
      = ((agentMessageTexts lines).getLast?).getD init := by
  induction lines with
  | nil => intro init; rfl
  | cons o rest ih =>
    intro init
    cases o with
    | none =>
      rw [List.foldl_cons, ih]
      rfl
    | some e =>
      cases he : e.item with
      | none =>
        rw [List.foldl_cons, ih]
        simp [agentMessageTexts, List.filterMap_cons, he]
      | some it =>
        by_cases hc : e.type = "item.completed" ∧ it.type = "agent_message"
        · rw [List.foldl_cons]
          have hstep :
              (match some e with
                | none => init
                | some e =>
                  match e.item with
                  | none => init
                  | some it =>
                    if e.type = "item.completed" ∧ it.type = "agent_message" then it.text
                    else init) = it.text := by
            simp [he, hc]
          rw [hstep, ih]
          have htexts : agentMessageTexts (some e :: rest) =
              it.text :: agentMessageTexts rest := by
            simp [agentMessageTexts, List.filterMap_cons, he, hc]
          rw [htexts, getLast?_cons_getD]
        · rw [List.foldl_cons]
          have hstep :
              (match some e with
                | none => init
                | some e =>
                  match e.item with
                  | none => init
                  | some it =>
                    if e.type = "item.completed" ∧ it.type = "agent_message" then it.text
                    else init) = init := by
            simp [he, hc]
          rw [hstep, ih]
          have htexts : agentMessageTexts (some e :: rest) = agentMessageTexts rest := by
            simp [agentMessageTexts, List.filterMap_cons, he, hc]
          rw [htexts]

/-- C9 (amended): the Codex invoker returns the text of the last completed
agent_message event when that event carries a non-empty text; when no such
event is present, and also when the last such event has an empty or absent
text, it returns the fixed fallback string. -/
theorem extractCodexResponse_spec (lines : List (Option CodexEvent)) :
    ((agentMessageTexts lines).getLast? = none →
        extractCodexResponse lines = codexFallback)
    ∧ (∀ s, (agentMessageTexts lines).getLast? = some (some s) → s ≠ "" →
        extractCodexResponse lines = s)
    ∧ ((agentMessageTexts lines).getLast? = some (some "") →
        extractCodexResponse lines = codexFallback)
    ∧ ((agentMessageTexts lines).getLast? = some none →
        extractCodexResponse lines = codexFallback) := by
  refine ⟨?_, ?_, ?_, ?_⟩
  · intro h
    simp [extractCodexResponse, codexFold_eq_getLast, h]
  · intro s h hs
    simp only [extractCodexResponse, codexFold_eq_getLast, h, Option.getD_some]
    simp [hs]
  · intro h
    simp [extractCodexResponse, codexFold_eq_getLast, h]
  · intro h
    simp [extractCodexResponse, codexFold_eq_getLast, h]

/-- Closed witness for extractCodexResponse_spec: one completed
agent_message event with a non-empty text is returned verbatim. -/
theorem extractCodexResponse_spec_witness :
    extractCodexResponse [some ⟨"item.completed", some ⟨"agent_message", some "hi"⟩⟩] = "hi" := by
  exact (extractCodexResponse_spec
    [some ⟨"item.completed", some ⟨"agent_message", some "hi"⟩⟩]).2.1 "hi" rfl (by decide)

/-- C9 counterexample: a present completed agent_message event whose text
is the empty string makes the invoker return the fallback string rather
than the event's text. -/
theorem extractCodex_emptyText_fallback :
    (agentMessageTexts [some ⟨"item.completed", some ⟨"agent_message", some ""⟩⟩]).getLast?
      = some (some "")
    ∧ extractCodexResponse [some ⟨"item.completed", some ⟨"agent_message", some ""⟩⟩]
      = codexFallback
    ∧ codexFallback ≠ "" := by
  exact ⟨by decide, by decide, by decide⟩

/-- Helper: the key of a keyed partition entry is that partition's key,
whether the reduction succeeded or failed. -/
theorem reduceOnePartition_fst (invoke : String → Except String String)
    (rp um : String) (p : String × List String) :
    (reduceOnePartition invoke rp um p).1 = p.1 := by
  unfold reduceOnePartition
  split <;> rfl

/-- Helper: every entry contributed by the unkeyed items carries the key
"_unkeyed". -/
theorem mem_reduceUnkeyed_fst (invoke : String → Except String String)
    (rp um : String) (unkeyed : List String) (e : String × String)
    (he : e ∈ reduceUnkeyed invoke rp um unkeyed) : e.1 = "_unkeyed" := by
  unfold reduceUnkeyed at he
  split at he
  · simp at he
  · split at he
    · rw [List.mem_singleton] at he
      rw [he]
    · simp at he

/-- Helper: a key not among the partition keys matches no keyed entry. -/
theorem filter_keyed_of_not_mem (invoke : String → Except String String)
    (rp um : String) (parts : List (String × List String)) (k : String)
    (hk : k ∉ parts.map Prod.fst) :
    (parts.map (reduceOnePartition invoke rp um)).filter (fun e => e.1 = k) = [] := by
  induction parts with
  | nil => rfl
  | cons p rest ih =>
    simp only [List.map_cons, List.mem_cons, not_or] at hk
    obtain ⟨h1, h2⟩ := hk
    simp only [List.map_cons]
    rw [List.filter_cons_of_neg]
    · exact ih h2
    · simp only [decide_eq_true_eq, reduceOnePartition_fst]
      exact fun h => h1 h.symm

/-- Helper: a key among the distinct partition keys matches exactly one
keyed entry. -/
theorem filter_keyed_count_one (invoke : String → Except String String)
    (rp um : String) (parts : List (String × List String)) (k : String)
    (hk : k ∈ parts.map Prod.fst) (hnd : (parts.map Prod.fst).Nodup) :
    ((parts.map (reduceOnePartition invoke rp um)).filter (fun e => e.1 = k)).length = 1 := by
  induction parts with
  | nil => simp at hk
  | cons p rest ih =>
    simp only [List.map_cons, List.mem_cons] at hk
    simp only [List.map_cons, List.nodup_cons] at hnd
    obtain ⟨hp, hndr⟩ := hnd
    by_cases hkp : p.1 = k
    · subst hkp
      simp only [List.map_cons]
      rw [List.filter_cons_of_pos
        (by simp only [decide_eq_true_eq, reduceOnePartition_fst])]
      rw [List.length_cons, filter_keyed_of_not_mem invoke rp um rest p.1 hp]
      rfl
    · have hkr : k ∈ rest.map Prod.fst := by
        cases hk with
        | inl h => exact absurd h.symm hkp
        | inr h => exact h
      simp only [List.map_cons]
      rw [List.filter_cons_of_neg
        (by simp only [decide_eq_true_eq, reduceOnePartition_fst]; exact hkp)]
      exact ih hkr hndr

/-- C5 (amended): every keyed partition whose reducer invocation fails has
the placeholder result recorded, and every keyed partition contributes
exactly one entry to the collected partition results that feed the final
merge; the "_unkeyed" partition, however, contributes an entry only when
its reduction succeeds — a failed unkeyed reduction is only logged and
adds no entry. -/
theorem shuffleReduce_entries_spec (invoke : String → Except String String)
    (rp um : String) (parts : List (String × List String)) (unkeyed : List String)
    (hnd : (parts.map Prod.fst).Nodup) (hnu : "_unkeyed" ∉ parts.map Prod.fst) :
    (∀ p, p ∈ parts → ∀ m,
        invoke (buildPartitionReducePrompt rp p.1 (String.intercalate "\n" p.2) p.2.length um)
          = Except.error m →
        (p.1, partitionPlaceholder p.1 m) ∈ collectPartitionResults invoke rp um parts unkeyed)
    ∧ (∀ k, k ∈ parts.map Prod.fst →
        ((collectPartitionResults invoke rp um parts unkeyed).filter
          (fun e => e.1 = k)).length = 1)
    ∧ (∀ m, unkeyed ≠ [] →
        invoke (buildPartitionReducePrompt rp "_unkeyed" (String.intercalate "\n" unkeyed)
          unkeyed.length um) = Except.error m →
        ∀ r, ("_unkeyed", r) ∉ collectPartitionResults invoke rp um parts unkeyed) := by
  refine ⟨?_, ?_, ?_⟩
  · intro p hp m herr
    unfold collectPartitionResults
    rw [List.mem_append]
    left
    rw [List.mem_map]
    refine ⟨p, hp, ?_⟩
    unfold reduceOnePartition
    rw [herr]
  · intro k hk
    unfold collectPartitionResults
    rw [List.filter_append, List.length_append]
    rw [filter_keyed_count_one invoke rp um parts k hk hnd]
    have hu : (reduceUnkeyed invoke rp um unkeyed).filter (fun e => e.1 = k) = [] := by
      rw [List.filter_eq_nil_iff]
      intro e he
      have h1 := mem_reduceUnkeyed_fst invoke rp um unkeyed e he
      simp only [decide_eq_true_eq, h1]
      intro hcontra
      rw [← hcontra] at hk
      exact hnu hk
    rw [hu]
    rfl
  · intro m hne herr r hmem
    unfold collectPartitionResults at hmem
    have hu : reduceUnkeyed invoke rp um unkeyed = [] := by
      unfold reduceUnkeyed
      rw [if_neg (by simp [hne]), herr]
    rw [hu, List.append_nil, List.mem_map] at hmem
    obtain ⟨p, hp, hpe⟩ := hmem
    have : p.1 = "_unkeyed" := by
      have h1 := reduceOnePartition_fst invoke rp um p
      rw [hpe] at h1
      exact h1.symm
    apply hnu
    rw [← this]
    exact List.mem_map_of_mem Prod.fst hp

/-- Closed witness for shuffleReduce_entries_spec: with one keyed
partition, unkeyed items, and a reducer that always fails, the keyed
partition records its placeholder and contributes exactly one entry. -/
theorem shuffleReduce_entries_spec_witness :
    ("a", partitionPlaceholder "a" "boom") ∈
      collectPartitionResults (fun _ => Except.error "boom") "" "" [("a", ["x"])] ["u"]
    ∧ ((collectPartitionResults (fun _ => Except.error "boom") "" "" [("a", ["x"])] ["u"]).filter
        (fun e => e.1 = "a")).length = 1 := by
  have h := shuffleReduce_entries_spec (fun _ => Except.error "boom") "" "" [("a", ["x"])] ["u"]
    (by decide) (by decide)
  exact ⟨h.1 ("a", ["x"]) (by decide) "boom" rfl, h.2.1 "a" (by decide)⟩

/-- C5 counterexample: with no keyed partitions, one unkeyed item, and a
reducer that fails, the collected partition results are empty — the
"_unkeyed" partition contributes no entry and no placeholder is recorded
for it, contradicting the claim. -/
theorem unkeyedPartitionFailure_dropped :
    collectPartitionResults (fun _ => Except.error "boom") "" "" [] ["u"] = []
    ∧ ("_unkeyed", partitionPlaceholder "_unkeyed" "boom") ∉
        collectPartitionResults (fun _ => Except.error "boom") "" "" [] ["u"] := by
  constructor
  · rfl
  · have h0 : collectPartitionResults (fun _ => Except.error "boom") "" "" [] ["u"] = [] := rfl
    rw [h0]
    exact List.not_mem_nil _

end TinyClaw
